import Mathlib

/-!
Znote: shallow embedding of server controllers and client stores.

Server side (Express + Prisma controllers) is modelled as pure functions on
an explicit database state (a list of rows).  JavaScript request bodies with
possibly-absent fields become structures of `Option` fields; JS truthiness
tests (`x || default`) become explicit helpers.  Prisma semantics used:
`findFirst` = `List.find?`, `createMany` with `skipDuplicates` = a fold that
skips rows whose unique id already exists, `contains`/`mode: insensitive` =
case-insensitive substring, `tags: has` = exact (case-sensitive) list
membership, `orderBy` = a stable sort by the lexicographic comparator.

Client side (zustand stores) is modelled with explicit state records; an
authenticated call that performs one network request is a function of the
request's outcome (`Except`), returning the pending state (after the
`set {loading := true}` on entry) paired with the final state.
-/

/-- HTTP-style result of a controller call: success status+payload or
error status+message. -/
inductive Resp (α : Type) where
  | ok : Nat → α → Resp α
  | err : Nat → String → Resp α
deriving DecidableEq, Repr

/-- JS `s || d` for an optional string field: absent or empty (falsy)
falls back to the default. -/
def strOr (o : Option String) (d : String) : String :=
  match o with
  | some s => if s = "" then d else s
  | none => d

/-- JS `b || false` for an optional boolean field. -/
def boolOr (o : Option Bool) : Bool := o.getD false

namespace Server

/-- A persisted note row (Prisma `note` model). -/
structure NoteRow where
  id : Nat
  title : String
  content : String
  color : String
  isPinned : Bool
  userId : Nat
  createdAt : Nat
deriving DecidableEq, Repr

/-- A persisted task row (Prisma `task` model). -/
structure TaskRow where
  id : Nat
  title : String
  description : Option String
  completed : Bool
  priority : String
  dueDate : Option Nat
  userId : Nat
  createdAt : Nat
deriving DecidableEq, Repr

/-- A persisted idea row (Prisma `idea` model). -/
structure IdeaRow where
  id : Nat
  title : String
  description : String
  category : String
  tags : List String
  userId : Nat
  createdAt : Nat
deriving DecidableEq, Repr

/-- A persisted user row (Prisma `user` model); `password` is the stored
bcrypt hash. -/
structure UserRow where
  id : Nat
  email : String
  password : String
  name : Option String
deriving DecidableEq, Repr

/-- Prisma `createMany` with `skipDuplicates: true`: insert the rows in
order, skipping any whose unique id already exists, and return the new
table together with the number of rows actually inserted. -/
def createMany {α : Type} (getId : α → Nat) : List α → List α → List α × Nat
  | [], db => (db, 0)
  | r :: rs, db =>
    if db.any (fun x => getId x == getId r) then
      createMany getId rs db
    else
      let out := createMany getId rs (db ++ [r])
      (out.1, out.2 + 1)

/-! ## Notes controller (src/server/controllers/notesController.js) -/

/-- Request body fields accepted by `updateNote` / `createNote`; each field
may be absent (`none`), matching the `!== undefined` checks in the code. -/
structure NoteReq where
  title : Option String := none
  content : Option String := none
  color : Option String := none
  isPinned : Option Bool := none
deriving DecidableEq, Repr

/-- One record of a `/notes/sync` request body: the output of the client's
`getNotesForSync` (a guest note stripped of its local id). -/
structure NoteSyncReq where
  title : String
  content : String
  color : Option String := none
  isPinned : Option Bool := none
deriving DecidableEq, Repr

/-- `getNotes`: all of the caller's notes, pinned first, then newest first
(`orderBy [isPinned desc, createdAt desc]`). -/
def noteLe (a b : NoteRow) : Bool :=
  if a.isPinned ≠ b.isPinned then a.isPinned
  else b.createdAt ≤ a.createdAt

def getNotes (uid : Nat) (db : List NoteRow) : Resp (List NoteRow) :=
  .ok 200 ((db.filter (fun n => n.userId == uid)).mergeSort noteLe)

/-- `createNote`: requires truthy title and content, applies defaults
`color || '#ffffff'` and `isPinned || false`, stamps the caller's id.
The id and creation time of the new row come from the database
(modelled as explicit arguments). -/
def createNote (uid : Nat) (body : NoteReq) (freshId now : Nat)
    (db : List NoteRow) : Resp NoteRow × List NoteRow :=
  if strOr body.title "" = "" ∨ strOr body.content "" = "" then
    (.err 400 "Title and content are required", db)
  else
    let row : NoteRow :=
      { id := freshId
        title := body.title.getD ""
        content := body.content.getD ""
        color := strOr body.color "#ffffff"
        isPinned := boolOr body.isPinned
        userId := uid
        createdAt := now }
    (.ok 201 row, db ++ [row])

/-- Merge of `updateNote`: only the fields present in the request change
(`...(f !== undefined && { f })`); `id` and `userId` are not in the
update data. -/
def mergeNote (old : NoteRow) (r : NoteReq) : NoteRow :=
  { old with
    title := r.title.getD old.title
    content := r.content.getD old.content
    color := r.color.getD old.color
    isPinned := r.isPinned.getD old.isPinned }

/-- `updateNote`: 404 if no row with this id is owned by the caller,
otherwise update only the provided fields of that row. -/
def updateNote (uid id : Nat) (body : NoteReq) (db : List NoteRow) :
    Resp NoteRow × List NoteRow :=
  match db.find? (fun n => n.id == id && n.userId == uid) with
  | none => (.err 404 "Note not found", db)
  | some old =>
    let merged := mergeNote old body
    (.ok 200 merged, db.map (fun n => if n.id == id then merged else n))

/-- `deleteNote`: 404 if no row with this id is owned by the caller,
otherwise remove the row with this id. -/
def deleteNote (uid id : Nat) (db : List NoteRow) :
    Resp String × List NoteRow :=
  match db.find? (fun n => n.id == id && n.userId == uid) with
  | none => (.err 404 "Note not found", db)
  | some _ =>
    (.ok 200 "Note deleted successfully", db.filter (fun n => !(n.id == id)))

/-- The row built by `bulkCreateNotes` for one incoming record: owner id
stamped, `color || '#ffffff'`, `isPinned || false`; the row id is
database-assigned (explicit argument). -/
def mapNoteSync (uid now i : Nat) (n : NoteSyncReq) : NoteRow :=
  { id := i
    title := n.title
    content := n.content
    color := strOr n.color "#ffffff"
    isPinned := boolOr n.isPinned
    userId := uid
    createdAt := now }

/-- `bulkCreateNotes`: 400 if the `notes` body field is not a non-empty
array; otherwise stamp every record with the caller's id and defaults and
insert them with `createMany`/`skipDuplicates`, answering the inserted
count.  `ids` supplies the database-assigned row ids. -/
def bulkCreateNotes (uid : Nat) (body : Option (List NoteSyncReq))
    (ids : List Nat) (now : Nat) (db : List NoteRow) :
    Resp Nat × List NoteRow :=
  match body with
  | none => (.err 400 "Notes array is required", db)
  | some notes =>
    if notes.isEmpty then (.err 400 "Notes array is required", db)
    else
      let rows := (notes.zip ids).map (fun p => mapNoteSync uid now p.2 p.1)
      let out := createMany NoteRow.id rows db
      (.ok 201 out.2, out.1)

/-! ## Tasks controller (src/unnamed/part_005) -/

/-- Request body fields accepted by `updateTask` / `createTask`.  The
`description` and `dueDate` fields distinguish absent (outer `none`) from
a supplied `null` (`some none`) from a supplied value (`some (some v)`),
matching the `!== undefined` checks of `updateTask`. -/
structure TaskReq where
  title : Option String := none
  description : Option (Option String) := none
  completed : Option Bool := none
  priority : Option String := none
  dueDate : Option (Option Nat) := none
deriving DecidableEq, Repr

/-- One record of a `/tasks/sync` request body. -/
structure TaskSyncReq where
  title : String
  description : Option String := none
  completed : Option Bool := none
  priority : Option String := none
  dueDate : Option Nat := none
deriving DecidableEq, Repr

/-- Ascending order on optional due dates; a missing date sorts last
(PostgreSQL `ASC` puts `NULL`s last). -/
def dueBefore (a b : Option Nat) : Bool :=
  match a, b with
  | none, _ => false
  | some _, none => true
  | some x, some y => x ≤ y

/-- `getTasks` ordering: `orderBy [completed asc, dueDate asc,
createdAt desc]` — incomplete first, then soonest due, then newest. -/
def taskLe (a b : TaskRow) : Bool :=
  if a.completed ≠ b.completed then b.completed
  else if a.dueDate ≠ b.dueDate then dueBefore a.dueDate b.dueDate
  else b.createdAt ≤ a.createdAt

def getTasks (uid : Nat) (db : List TaskRow) : Resp (List TaskRow) :=
  .ok 200 ((db.filter (fun t => t.userId == uid)).mergeSort taskLe)

/-- `createTask`: requires truthy title; defaults `description || null`,
`completed || false`, `priority || 'medium'`, `dueDate ? new Date : null`. -/
def createTask (uid : Nat) (body : TaskReq) (freshId now : Nat)
    (db : List TaskRow) : Resp TaskRow × List TaskRow :=
  if strOr body.title "" = "" then
    (.err 400 "Title is required", db)
  else
    let row : TaskRow :=
      { id := freshId
        title := body.title.getD ""
        description := (body.description.bind id).bind
          (fun s => if s = "" then none else some s)
        completed := boolOr body.completed
        priority := strOr body.priority "medium"
        dueDate := body.dueDate.bind id
        userId := uid
        createdAt := now }
    (.ok 201 row, db ++ [row])

/-- Merge of `updateTask`: only the fields present in the request change;
`id` and `userId` are not in the update data. -/
def mergeTask (old : TaskRow) (r : TaskReq) : TaskRow :=
  { old with
    title := r.title.getD old.title
    description := r.description.getD old.description
    completed := r.completed.getD old.completed
    priority := r.priority.getD old.priority
    dueDate := match r.dueDate with
      | none => old.dueDate
      | some d => d }

/-- `updateTask`: 404 if no row with this id is owned by the caller,
otherwise update only the provided fields of that row. -/
def updateTask (uid id : Nat) (body : TaskReq) (db : List TaskRow) :
    Resp TaskRow × List TaskRow :=
  match db.find? (fun t => t.id == id && t.userId == uid) with
  | none => (.err 404 "Task not found", db)
  | some old =>
    let merged := mergeTask old body
    (.ok 200 merged, db.map (fun t => if t.id == id then merged else t))

/-- `deleteTask`: same shape as `deleteNote`. -/
def deleteTask (uid id : Nat) (db : List TaskRow) :
    Resp String × List TaskRow :=
  match db.find? (fun t => t.id == id && t.userId == uid) with
  | none => (.err 404 "Task not found", db)
  | some _ =>
    (.ok 200 "Task deleted successfully", db.filter (fun t => !(t.id == id)))

/-- The row built by `bulkCreateTasks` for one incoming record. -/
def mapTaskSync (uid now i : Nat) (t : TaskSyncReq) : TaskRow :=
  { id := i
    title := t.title
    description := t.description.bind (fun s => if s = "" then none else some s)
    completed := boolOr t.completed
    priority := strOr t.priority "medium"
    dueDate := t.dueDate
    userId := uid
    createdAt := now }

/-- `bulkCreateTasks`: 400 on a missing/empty `tasks` array, otherwise
stamp owner id and Create's defaults and insert via `createMany`. -/
def bulkCreateTasks (uid : Nat) (body : Option (List TaskSyncReq))
    (ids : List Nat) (now : Nat) (db : List TaskRow) :
    Resp Nat × List TaskRow :=
  match body with
  | none => (.err 400 "Tasks array is required", db)
  | some tasks =>
    if tasks.isEmpty then (.err 400 "Tasks array is required", db)
    else
      let rows := (tasks.zip ids).map (fun p => mapTaskSync uid now p.2 p.1)
      let out := createMany TaskRow.id rows db
      (.ok 201 out.2, out.1)

/-! ## Ideas controller (src/unnamed/part_004) -/

/-- Request body fields accepted by `updateIdea` / `createIdea`; `tags`
models `Array.isArray(tags) ? tags : []` (a non-array value counts as
absent for Create and as `[]` for Update's provided-tags branch). -/
structure IdeaReq where
  title : Option String := none
  description : Option String := none
  category : Option String := none
  tags : Option (List String) := none
deriving DecidableEq, Repr

/-- One record of an `/ideas/sync` request body. -/
structure IdeaSyncReq where
  title : String
  description : String
  category : Option String := none
  tags : Option (List String) := none
deriving DecidableEq, Repr

/-- Newest-first order on ideas (`orderBy createdAt desc`). -/
def ideaNewestLe (a b : IdeaRow) : Bool := b.createdAt ≤ a.createdAt

/-- `getIdeas`: caller's ideas, optionally filtered by (truthy) category,
newest first. -/
def getIdeas (uid : Nat) (category : Option String) (db : List IdeaRow) :
    Resp (List IdeaRow) :=
  let base := db.filter (fun i => i.userId == uid)
  let filtered :=
    if strOr category "" = "" then base
    else base.filter (fun i => i.category == category.getD "")
  .ok 200 (filtered.mergeSort ideaNewestLe)

/-- `createIdea`: requires truthy title and description; defaults
`category || 'general'` and `Array.isArray(tags) ? tags : []`. -/
def createIdea (uid : Nat) (body : IdeaReq) (freshId now : Nat)
    (db : List IdeaRow) : Resp IdeaRow × List IdeaRow :=
  if strOr body.title "" = "" ∨ strOr body.description "" = "" then
    (.err 400 "Title and description are required", db)
  else
    let row : IdeaRow :=
      { id := freshId
        title := body.title.getD ""
        description := body.description.getD ""
        category := strOr body.category "general"
        tags := body.tags.getD []
        userId := uid
        createdAt := now }
    (.ok 201 row, db ++ [row])

/-- Merge of `updateIdea`: only the fields present in the request change. -/
def mergeIdea (old : IdeaRow) (r : IdeaReq) : IdeaRow :=
  { old with
    title := r.title.getD old.title
    description := r.description.getD old.description
    category := r.category.getD old.category
    tags := r.tags.getD old.tags }

/-- `updateIdea`: 404 if no row with this id is owned by the caller. -/
def updateIdea (uid id : Nat) (body : IdeaReq) (db : List IdeaRow) :
    Resp IdeaRow × List IdeaRow :=
  match db.find? (fun i => i.id == id && i.userId == uid) with
  | none => (.err 404 "Idea not found", db)
  | some old =>
    let merged := mergeIdea old body
    (.ok 200 merged, db.map (fun i => if i.id == id then merged else i))

/-- `deleteIdea`: same shape as `deleteNote`. -/
def deleteIdea (uid id : Nat) (db : List IdeaRow) :
    Resp String × List IdeaRow :=
  match db.find? (fun i => i.id == id && i.userId == uid) with
  | none => (.err 404 "Idea not found", db)
  | some _ =>
    (.ok 200 "Idea deleted successfully", db.filter (fun i => !(i.id == id)))

/-- The row built by `bulkCreateIdeas` for one incoming record. -/
def mapIdeaSync (uid now i : Nat) (r : IdeaSyncReq) : IdeaRow :=
  { id := i
    title := r.title
    description := r.description
    category := strOr r.category "general"
    tags := r.tags.getD []
    userId := uid
    createdAt := now }

/-- `bulkCreateIdeas`: 400 on a missing/empty `ideas` array, otherwise
stamp owner id and Create's defaults and insert via `createMany`. -/
def bulkCreateIdeas (uid : Nat) (body : Option (List IdeaSyncReq))
    (ids : List Nat) (now : Nat) (db : List IdeaRow) :
    Resp Nat × List IdeaRow :=
  match body with
  | none => (.err 400 "Ideas array is required", db)
  | some ideas =>
    if ideas.isEmpty then (.err 400 "Ideas array is required", db)
    else
      let rows := (ideas.zip ids).map (fun p => mapIdeaSync uid now p.2 p.1)
      let out := createMany IdeaRow.id rows db
      (.ok 201 out.2, out.1)

/-- `needle` occurs as a contiguous sublist of `hay`. -/
def listContainsSub (needle : List Char) : List Char → Bool
  | [] => needle.isEmpty
  | c :: t => needle.isPrefixOf (c :: t) || listContainsSub needle t

/-- The lower-cased character sequence of a string (the comparison form
Prisma's `mode: 'insensitive'` reduces both sides to). -/
def lowerStr (s : String) : List Char :=
  s.toList.map Char.toLower

/-- Case-insensitive substring test: Prisma
`contains: q, mode: 'insensitive'`. -/
def containsCI (hay q : String) : Bool :=
  listContainsSub (lowerStr q) (lowerStr hay)

/-- The `OR` filter of `searchIdeas`: case-insensitive substring on title
and description, and Prisma `tags: { has: query }` — exact, case-sensitive
membership in the tag list. -/
def ideaMatches (q : String) (i : IdeaRow) : Bool :=
  containsCI i.title q || containsCI i.description q || i.tags.contains q

/-- The list answered by a successful `searchIdeas` call. -/
def searchResult (uid : Nat) (q : String) (db : List IdeaRow) :
    List IdeaRow :=
  (db.filter (fun i => i.userId == uid && ideaMatches q i)).mergeSort
    ideaNewestLe

/-- `searchIdeas`: 400 when the query is missing (or empty, which is
falsy), otherwise the matching caller-owned ideas, newest first. -/
def searchIdeas (uid : Nat) (query : Option String) (db : List IdeaRow) :
    Resp (List IdeaRow) :=
  match query with
  | none => .err 400 "Search query is required"
  | some q =>
    if q = "" then .err 400 "Search query is required"
    else .ok 200 (searchResult uid q db)

/-! ## Auth controller (src/server/controllers/authController.js) -/

/-- Payload of a successful login/registration: the user's public fields
and the signed token. -/
structure AuthOk where
  id : Nat
  email : String
  name : Option String
  token : String
deriving DecidableEq, Repr

/-- `login`: 400 if email or password is falsy; find the user by email;
401 with the uniform message if the email is absent; 401 with the same
message if the bcrypt comparison fails; otherwise sign and answer a token.
`compare` models `bcrypt.compare` and `sign` models `jwt.sign` over the
token claims (user id, email). -/
def login (compare : String → String → Bool) (sign : Nat → String → String)
    (email password : String) (db : List UserRow) : Resp AuthOk :=
  if email = "" ∨ password = "" then
    .err 400 "Email and password are required"
  else
    match db.find? (fun u => u.email == email) with
    | none => .err 401 "Invalid email or password"
    | some u =>
      if compare password u.password then
        .ok 200 { id := u.id, email := u.email, name := u.name,
                  token := sign u.id u.email }
      else
        .err 401 "Invalid email or password"

end Server

namespace Client

/-- A note held by the client store.  In guest mode the object is exactly
`{ id: generateId(), ...noteData, createdAt, updatedAt }`, so every data
field the caller did not supply is absent (`none`) — no defaults are
applied. -/
structure ClientNote where
  id : String
  title : Option String := none
  content : Option String := none
  color : Option String := none
  isPinned : Option Bool := none
  createdAt : String := ""
  updatedAt : String := ""
deriving DecidableEq, Repr

/-- The caller-supplied `noteData` object. -/
structure NoteData where
  title : Option String := none
  content : Option String := none
  color : Option String := none
  isPinned : Option Bool := none
deriving DecidableEq, Repr

/-- State of the notes store: record list, loading flag, last error. -/
structure NotesState where
  notes : List ClientNote
  loading : Bool := false
  error : Option String := none
deriving DecidableEq, Repr

/-- The store's `partialize`: only the `notes` slice is persisted to
local storage. -/
def persistNotes (st : NotesState) : List ClientNote := st.notes

/-- Guest branch of `addNote`: synthesize id and timestamps, spread the
supplied fields, prepend; `loading` and `error` are not touched. -/
def addNoteGuest (genId now : String) (noteData : NoteData)
    (st : NotesState) : NotesState × ClientNote :=
  let newNote : ClientNote :=
    { id := genId
      title := noteData.title
      content := noteData.content
      color := noteData.color
      isPinned := noteData.isPinned
      createdAt := now
      updatedAt := now }
  ({ st with notes := newNote :: st.notes }, newNote)

/-- Authenticated branch of `addNote`, as the pair of states the two
`set` calls produce: entry sets `loading := true, error := none`; a
successful response prepends the server's note and clears `loading`; a
failure records the message and clears `loading`, leaving the list as it
was. -/
def addNoteAuth (st : NotesState) (resp : Except String ClientNote) :
    NotesState × NotesState :=
  let pending : NotesState := { st with loading := true, error := none }
  match resp with
  | .ok n =>
    (pending, { pending with notes := n :: pending.notes, loading := false })
  | .error m =>
    (pending, { pending with error := some m, loading := false })

/-- Guest branch of `deleteNote`: filter the list; `loading` and `error`
are not touched. -/
def deleteNoteGuest (id : String) (st : NotesState) : NotesState :=
  { st with notes := st.notes.filter (fun n => !(n.id == id)) }

/-- Authenticated branch of `deleteNote`, as the pair of states of the
two `set` calls. -/
def deleteNoteAuth (id : String) (st : NotesState)
    (resp : Except String Unit) : NotesState × NotesState :=
  let pending : NotesState := { st with loading := true, error := none }
  match resp with
  | .ok _ =>
    (pending, { pending with
      notes := pending.notes.filter (fun n => !(n.id == id)),
      loading := false })
  | .error m =>
    (pending, { pending with error := some m, loading := false })

/-- `getNotesForSync`: the local list with the local ids stripped. -/
def getNotesForSync (notes : List ClientNote) : List NoteData :=
  notes.map (fun n =>
    { title := n.title, content := n.content,
      color := n.color, isPinned := n.isPinned })

/-! ## Tasks store (src/client/src/stores/tasksStore.js) -/

/-- A task held by the client store.  Guest `addTask` writes
`completed: false` after spreading `taskData`, so `completed` is always a
concrete boolean, while the other data fields stay exactly as supplied. -/
structure ClientTask where
  id : String
  title : Option String := none
  description : Option String := none
  completed : Bool := false
  priority : Option String := none
  dueDate : Option String := none
  createdAt : String := ""
  updatedAt : String := ""
deriving DecidableEq, Repr

/-- The caller-supplied `taskData` object. -/
structure TaskData where
  title : Option String := none
  description : Option String := none
  completed : Option Bool := none
  priority : Option String := none
  dueDate : Option String := none
deriving DecidableEq, Repr

/-- State of the tasks store. -/
structure TasksState where
  tasks : List ClientTask
  loading : Bool := false
  error : Option String := none
deriving DecidableEq, Repr

/-- Guest branch of `addTask`:
`{ id, ...taskData, completed: false, createdAt, updatedAt }` — the
`completed: false` written after the spread overrides any supplied value. -/
def addTaskGuest (genId now : String) (taskData : TaskData)
    (st : TasksState) : TasksState × ClientTask :=
  let newTask : ClientTask :=
    { id := genId
      title := taskData.title
      description := taskData.description
      completed := false
      priority := taskData.priority
      dueDate := taskData.dueDate
      createdAt := now
      updatedAt := now }
  ({ st with tasks := newTask :: st.tasks }, newTask)

/-- `getTasksForSync`: the local list with the local ids stripped. -/
def getTasksForSync (tasks : List ClientTask) : List TaskData :=
  tasks.map (fun t =>
    { title := t.title, description := t.description,
      completed := some t.completed, priority := t.priority,
      dueDate := t.dueDate })

/-! ## Ideas store (src/unnamed/part_004 client half) -/

/-- An idea held by the client store; guest `addIdea` fills `tags` and
`category` with defaults, so they are concrete. -/
structure ClientIdea where
  id : String
  title : Option String := none
  description : Option String := none
  category : String := "general"
  tags : List String := []
  createdAt : String := ""
  updatedAt : String := ""
deriving DecidableEq, Repr

/-- The caller-supplied `ideaData` object. -/
structure IdeaData where
  title : Option String := none
  description : Option String := none
  category : Option String := none
  tags : Option (List String) := none
deriving DecidableEq, Repr

/-- `getIdeasForSync`: the local list with the local ids stripped. -/
def getIdeasForSync (ideas : List ClientIdea) : List IdeaData :=
  ideas.map (fun i =>
    { title := i.title, description := i.description,
      category := some i.category, tags := some i.tags })

/-! ## Auth store register + AuthPage submit
(src/client/src/stores/notesStore.js auth half, src/client/src/pages/IdeasPage.jsx AuthPage half) -/

/-- The user object held by the auth store. -/
structure ClientUser where
  id : Nat
  email : String
  name : Option String
deriving DecidableEq, Repr

/-- State of the auth store. -/
structure AuthState where
  user : Option ClientUser := none
  token : Option String := none
  isAuthenticated : Bool := false
  isGuest : Bool := true
deriving DecidableEq, Repr

/-- The guest data object the page hands to `register`. -/
structure GuestData where
  notes : List NoteData
  tasks : List TaskData
  ideas : List IdeaData
deriving DecidableEq, Repr

/-- Outcomes of the network calls `register` can make, supplied as the
environment of one run: the `/auth/register` call and the three
per-type `/sync` calls.  An `Except.error` models the awaited request
throwing. -/
structure RegisterEnv where
  regResp : Except String (ClientUser × String)
  notesResp : Except String Nat
  tasksResp : Except String Nat
  ideasResp : Except String Nat

/-- What happened during the sync phase of `register`: overall success,
the caught error, and which per-type sync calls completed successfully
(that is, whose records the server inserted before any failure). -/
structure SyncOutcome where
  success : Bool
  error : Option String := none
  notesSynced : Bool := false
  tasksSynced : Bool := false
  ideasSynced : Bool := false
deriving DecidableEq, Repr

/-- Third sync step: `if (ideas && ideas.length > 0) await post('/ideas/sync')`. -/
def syncIdeasStep (env : RegisterEnv) (g : GuestData) (n t : Bool) :
    SyncOutcome :=
  if g.ideas.length > 0 then
    match env.ideasResp with
    | .error m =>
      { success := false, error := some m, notesSynced := n, tasksSynced := t }
    | .ok _ =>
      { success := true, notesSynced := n, tasksSynced := t,
        ideasSynced := true }
  else { success := true, notesSynced := n, tasksSynced := t }

/-- Second sync step: `if (tasks && tasks.length > 0) await post('/tasks/sync')`;
a thrown request aborts the remaining steps (control jumps to `catch`). -/
def syncTasksStep (env : RegisterEnv) (g : GuestData) (n : Bool) :
    SyncOutcome :=
  if g.tasks.length > 0 then
    match env.tasksResp with
    | .error m => { success := false, error := some m, notesSynced := n }
    | .ok _ => syncIdeasStep env g n true
  else syncIdeasStep env g n false

/-- First sync step: `if (notes && notes.length > 0) await post('/notes/sync')`. -/
def syncNotesStep (env : RegisterEnv) (g : GuestData) : SyncOutcome :=
  if g.notes.length > 0 then
    match env.notesResp with
    | .error m => { success := false, error := some m }
    | .ok _ => syncTasksStep env g true
  else syncTasksStep env g false

/-- Result of one `register` call: the auth store state it leaves behind,
the `{success, ...}` object it returns, and the sync trace. -/
structure RegisterTrace where
  state : AuthState
  success : Bool
  error : Option String
  sync : SyncOutcome
deriving DecidableEq, Repr

/-- The auth store's `register`: on a successful `/auth/register` call the
auth state is committed (step 2) before any sync call runs (step 3); a
sync failure is caught and turned into `{success: false}`, leaving the
already-committed auth state in place. -/
def registerClient (env : RegisterEnv) (guestData : Option GuestData)
    (st0 : AuthState) : RegisterTrace :=
  match env.regResp with
  | .error m =>
    { state := st0, success := false, error := some m,
      sync := { success := false } }
  | .ok (u, tok) =>
    let st1 : AuthState :=
      { user := some u, token := some tok,
        isAuthenticated := true, isGuest := false }
    match guestData with
    | none =>
      { state := st1, success := true, error := none,
        sync := { success := true } }
    | some g =>
      let s := syncNotesStep env g
      { state := st1, success := s.success, error := s.error, sync := s }

/-- The three content lists the page reads from the stores. -/
structure PageLists where
  notes : List ClientNote
  tasks : List ClientTask
  ideas : List ClientIdea
deriving DecidableEq, Repr

/-- `AuthPage.handleSubmit`, register branch: build `guestData` when any
list is non-empty, call `register`, and clear the three lists only when
the result reports success (and there was guest data). -/
def handleRegisterSubmit (env : RegisterEnv) (st0 : AuthState)
    (lists : PageLists) : RegisterTrace × PageLists :=
  let hasGuestData : Bool :=
    lists.notes.length > 0 || lists.tasks.length > 0 ||
      lists.ideas.length > 0
  let guestData : Option GuestData :=
    if hasGuestData then
      some { notes := getNotesForSync lists.notes,
             tasks := getTasksForSync lists.tasks,
             ideas := getIdeasForSync lists.ideas }
    else none
  let tr := registerClient env guestData st0
  if tr.success && hasGuestData then
    (tr, { notes := [], tasks := [], ideas := [] })
  else (tr, lists)

end Client

/-! ## Lemmas about `createMany` -/

namespace Server

/-- The table grows by exactly the answered count: the count equals the
number of rows actually inserted. -/
theorem createMany_length {α : Type} (getId : α → Nat) :
    ∀ (rows db : List α),
      (createMany getId rows db).1.length =
        db.length + (createMany getId rows db).2
  | [], db => by simp [createMany]
  | r :: rs, db => by
    by_cases h : db.any (fun x => getId x == getId r)
    · simpa [createMany, h] using createMany_length getId rs db
    · have ih := createMany_length getId rs (db ++ [r])
      simp only [createMany, if_neg h]
      simp only [List.length_append, List.length_singleton] at ih
      omega

/-- A row whose id collides with an existing row is skipped. -/
theorem createMany_skip {α : Type} (getId : α → Nat) (r : α)
    (rows db : List α) (h : ∃ x ∈ db, getId x = getId r) :
    createMany getId (r :: rows) db = createMany getId rows db := by
  obtain ⟨x, hx, hid⟩ := h
  have : db.any (fun x => getId x == getId r) = true := by
    simp only [List.any_eq_true, beq_iff_eq]
    exact ⟨x, hx, hid⟩
  simp [createMany, this]

/-- Every row of the resulting table was already present or is one of
the rows being inserted. -/
theorem createMany_mem {α : Type} (getId : α → Nat) :
    ∀ (rows db : List α) (x : α), x ∈ (createMany getId rows db).1 →
      x ∈ db ∨ x ∈ rows
  | [], db, x => by simp [createMany]
  | r :: rs, db, x => by
    by_cases h : db.any (fun y => getId y == getId r)
    · simp only [createMany, if_pos h]
      intro hx
      rcases createMany_mem getId rs db x hx with hd | hr
      · exact .inl hd
      · exact .inr (List.mem_cons_of_mem r hr)
    · simp only [createMany, if_neg h]
      intro hx
      rcases createMany_mem getId rs (db ++ [r]) x hx with hd | hr
      · rcases List.mem_append.1 hd with hdb | hrr
        · exact .inl hdb
        · exact .inr (List.mem_singleton.1 hrr ▸ List.mem_cons_self r rs)
      · exact .inr (List.mem_cons_of_mem r hr)

/-- With pairwise-distinct ids that are all fresh for the table, every
row is inserted: the table becomes `db ++ rows` and the count is the
number of rows. -/
theorem createMany_fresh {α : Type} (getId : α → Nat) :
    ∀ (rows db : List α), (rows.map getId).Nodup →
      (∀ r ∈ rows, ∀ x ∈ db, getId x ≠ getId r) →
      createMany getId rows db = (db ++ rows, rows.length)
  | [], db, _, _ => by simp [createMany]
  | r :: rs, db, hnd, hfresh => by
    have hnotin : db.any (fun x => getId x == getId r) = false := by
      simp only [List.any_eq_false, beq_iff_eq]
      intro x hx
      exact hfresh r (List.mem_cons_self r rs) x hx
    have hnd' : (rs.map getId).Nodup := (List.nodup_cons.1 (by simpa using hnd)).2
    have hhead : getId r ∉ rs.map getId := (List.nodup_cons.1 (by simpa using hnd)).1
    have hfresh' : ∀ s ∈ rs, ∀ x ∈ db ++ [r], getId x ≠ getId s := by
      intro s hs x hx
      rcases List.mem_append.1 hx with hdb | hr
      · exact hfresh s (List.mem_cons_of_mem r hs) x hdb
      · have : x = r := List.mem_singleton.1 hr
        subst this
        intro heq
        exact hhead (heq ▸ List.mem_map_of_mem getId hs)
    have ih := createMany_fresh getId rs (db ++ [r]) hnd' hfresh'
    simp only [createMany, hnotin, Bool.false_eq_true, if_neg, ih]
    simp

/-- The database-assigned ids of the rows a bulk notes import builds are
exactly the supplied id list. -/
theorem mapNoteSync_ids (uid now : Nat) (notes : List NoteSyncReq)
    (ids : List Nat) (h : ids.length = notes.length) :
    ((notes.zip ids).map (fun p => mapNoteSync uid now p.2 p.1)).map
      NoteRow.id = ids := by
  rw [List.map_map]
  have heq : ((notes.zip ids).map (NoteRow.id ∘ fun p => mapNoteSync uid now p.2 p.1)) =
      (notes.zip ids).map Prod.snd :=
    List.map_congr_left (fun p _ => rfl)
  rw [heq]
  exact List.map_snd_zip notes ids (le_of_eq h)

end Server

/-- C1: BulkImport with a missing or empty records array fails with 400
and inserts nothing (all three content types); otherwise every imported
record is stamped with the caller's owner id and gets the same per-type
defaults as Create (notes: color `#ffffff`, pinned false; tasks: priority
`medium`, completed false; ideas: category `general`, tags `[]`); a record
whose id collides with an existing row is skipped; the answered count
equals the number of rows actually inserted; and for N records under
fresh, distinct database-assigned ids, exactly N rows are inserted with
count = N. -/
theorem claim_C1_bulk_import :
    (∀ uid ids now db,
        Server.bulkCreateNotes uid none ids now db =
          (.err 400 "Notes array is required", db) ∧
        Server.bulkCreateNotes uid (some []) ids now db =
          (.err 400 "Notes array is required", db)) ∧
    (∀ uid ids now db,
        Server.bulkCreateTasks uid none ids now db =
          (.err 400 "Tasks array is required", db) ∧
        Server.bulkCreateTasks uid (some []) ids now db =
          (.err 400 "Tasks array is required", db)) ∧
    (∀ uid ids now db,
        Server.bulkCreateIdeas uid none ids now db =
          (.err 400 "Ideas array is required", db) ∧
        Server.bulkCreateIdeas uid (some []) ids now db =
          (.err 400 "Ideas array is required", db)) ∧
    (∀ uid now i n, (Server.mapNoteSync uid now i n).userId = uid ∧
        (n.color = none → (Server.mapNoteSync uid now i n).color = "#ffffff") ∧
        (n.isPinned = none → (Server.mapNoteSync uid now i n).isPinned = false)) ∧
    (∀ uid now i t, (Server.mapTaskSync uid now i t).userId = uid ∧
        (t.priority = none → (Server.mapTaskSync uid now i t).priority = "medium") ∧
        (t.completed = none → (Server.mapTaskSync uid now i t).completed = false)) ∧
    (∀ uid now i r, (Server.mapIdeaSync uid now i r).userId = uid ∧
        (r.category = none → (Server.mapIdeaSync uid now i r).category = "general") ∧
        (r.tags = none → (Server.mapIdeaSync uid now i r).tags = [])) ∧
    (∀ (r : Server.NoteRow) rows db, (∃ x ∈ db, x.id = r.id) →
        Server.createMany Server.NoteRow.id (r :: rows) db =
          Server.createMany Server.NoteRow.id rows db) ∧
    (∀ uid notes ids now db cnt db2, notes ≠ [] →
        Server.bulkCreateNotes uid (some notes) ids now db = (.ok 201 cnt, db2) →
        db2.length = db.length + cnt) ∧
    (∀ uid notes ids now db, notes ≠ [] → ids.length = notes.length →
        ids.Nodup → (∀ i ∈ ids, ∀ r ∈ db, r.id ≠ i) →
        Server.bulkCreateNotes uid (some notes) ids now db =
          (.ok 201 notes.length,
            db ++ (notes.zip ids).map
              (fun p => Server.mapNoteSync uid now p.2 p.1))) := by
  refine ⟨?_, ?_, ?_, ?_, ?_, ?_, ?_, ?_, ?_⟩
  · intro uid ids now db
    exact ⟨rfl, rfl⟩
  · intro uid ids now db
    exact ⟨rfl, rfl⟩
  · intro uid ids now db
    exact ⟨rfl, rfl⟩
  · intro uid now i n
    refine ⟨rfl, ?_, ?_⟩ <;> intro h <;> simp [Server.mapNoteSync, h, strOr, boolOr]
  · intro uid now i t
    refine ⟨rfl, ?_, ?_⟩ <;> intro h <;> simp [Server.mapTaskSync, h, strOr, boolOr]
  · intro uid now i r
    refine ⟨rfl, ?_, ?_⟩ <;> intro h <;> simp [Server.mapIdeaSync, h, strOr]
  · intro r rows db h
    exact Server.createMany_skip Server.NoteRow.id r rows db h
  · intro uid notes ids now db cnt db2 hne heq
    have hempty : notes.isEmpty = false := by
      simp [List.isEmpty_iff, hne]
    simp only [Server.bulkCreateNotes, hempty, Bool.false_eq_true, if_neg,
      not_false_iff] at heq
    have hlen := Server.createMany_length Server.NoteRow.id
      ((notes.zip ids).map (fun p => Server.mapNoteSync uid now p.2 p.1)) db
    obtain ⟨h1, h2⟩ := Prod.mk.injEq .. ▸ heq
    cases h1
    cases h2
    exact hlen
  · intro uid notes ids now db hne hlen hnd hfresh
    have hempty : notes.isEmpty = false := by
      simp [List.isEmpty_iff, hne]
    have hids := Server.mapNoteSync_ids uid now notes ids hlen
    have h1 : (((notes.zip ids).map
        (fun p => Server.mapNoteSync uid now p.2 p.1)).map
          Server.NoteRow.id).Nodup := by rw [hids]; exact hnd
    have h2 : ∀ r ∈ (notes.zip ids).map
        (fun p => Server.mapNoteSync uid now p.2 p.1),
        ∀ x ∈ db, Server.NoteRow.id x ≠ Server.NoteRow.id r := by
      intro r hr x hx
      have hmem : r.id ∈ ids := by
        rw [← hids]
        exact List.mem_map_of_mem Server.NoteRow.id hr
      exact hfresh r.id hmem x hx
    have hf := Server.createMany_fresh Server.NoteRow.id
      ((notes.zip ids).map (fun p => Server.mapNoteSync uid now p.2 p.1)) db h1 h2
    have hrl : ((notes.zip ids).map
        (fun p => Server.mapNoteSync uid now p.2 p.1)).length = notes.length := by
      simp [List.length_zip, hlen]
    simp [Server.bulkCreateNotes, hempty, hf, hrl]

/-- Witness for C1: importing one note with a fresh id 5 for caller 7
inserts exactly one row, stamped and defaulted, with count 1. -/
theorem claim_C1_bulk_import_witness :
    Server.bulkCreateNotes 7
        (some [{ title := "a", content := "b" }]) [5] 0 [] =
      (.ok 201 1,
        [{ id := 5, title := "a", content := "b", color := "#ffffff",
           isPinned := false, userId := 7, createdAt := 0 }]) := by
  have h := claim_C1_bulk_import.2.2.2.2.2.2.2.2 7
    [{ title := "a", content := "b" }] [5] 0 []
    (by simp) (by simp) (by simp) (by intro i hi r hr; simp at hr)
  simpa [Server.mapNoteSync, strOr, boolOr] using h

/-- C2 counterexample: a guest Add of `{title:"A", content:"B"}` to an
empty store yields a note whose `color` field is absent, not the default
`#ffffff`, and whose `isPinned` field is absent, not `false` — the guest
branch of `addNote` spreads the supplied fields without applying
defaults. -/
theorem claim_C2_counterexample :
    (Client.addNoteGuest "local-1" "2024-01-01"
        { title := some "A", content := some "B" } { notes := [] }).2.color
      ≠ some "#ffffff" ∧
    (Client.addNoteGuest "local-1" "2024-01-01"
        { title := some "A", content := some "B" } { notes := [] }).2.isPinned
      ≠ some false := by
  constructor <;> simp [Client.addNoteGuest]

/-- C2 (amended): a guest Add of `{title:"A", content:"B"}` to an empty
store yields a one-element list whose note has the freshly generated id,
the supplied title and content, created and updated timestamps set to the
current time, and no color or pinned fields (guest mode applies no
defaults); the persisted copy (the `partialize` slice) equals the
in-memory list. -/
theorem claim_C2_guest_add (genId now : String) :
    (Client.addNoteGuest genId now
        { title := some "A", content := some "B" } { notes := [] }).1.notes =
      [{ id := genId, title := some "A", content := some "B",
         color := none, isPinned := none,
         createdAt := now, updatedAt := now }] ∧
    Client.persistNotes
        (Client.addNoteGuest genId now
          { title := some "A", content := some "B" } { notes := [] }).1 =
      (Client.addNoteGuest genId now
          { title := some "A", content := some "B" } { notes := [] }).1.notes := by
  exact ⟨rfl, rfl⟩

/-- C3 counterexample: with query `blue` and a caller-owned idea whose
only candidate field is the tag `Blue` (equal to the query up to case),
the search answers the empty list: Prisma `tags: { has: query }` is an
exact, case-sensitive membership test. -/
theorem claim_C3_counterexample :
    Server.lowerStr "Blue" = Server.lowerStr "blue" ∧
    Server.searchIdeas 1 (some "blue")
        [{ id := 1, title := "x", description := "y", category := "general",
           tags := ["Blue"], userId := 1, createdAt := 0 }] = .ok 200 [] := by
  refine ⟨by decide, ?_⟩
  have hfilter :
      ([({ id := 1, title := "x", description := "y", category := "general",
           tags := ["Blue"], userId := 1, createdAt := 0 } :
            Server.IdeaRow)].filter
        (fun i => i.userId == 1 && Server.ideaMatches "blue" i)) = [] := by
    decide
  simp [Server.searchIdeas, Server.searchResult, hfilter]

/-- C3 (amended): Search fails with 400 when the query is missing (or
empty, which is falsy); otherwise it answers, newest first, exactly the
caller-owned ideas where the query is a case-insensitive substring of the
title or description, or where some tag entry equals the query exactly —
the tag membership test is case-sensitive, so a query matches a tag equal
to it including case, and only then. -/
theorem claim_C3_search (uid : Nat) (q : String) (db : List Server.IdeaRow)
    (hq : q ≠ "") :
    Server.searchIdeas uid none db = .err 400 "Search query is required" ∧
    Server.searchIdeas uid (some "") db = .err 400 "Search query is required" ∧
    Server.searchIdeas uid (some q) db =
      .ok 200 (Server.searchResult uid q db) ∧
    List.Perm (Server.searchResult uid q db)
      (db.filter (fun i => i.userId == uid && Server.ideaMatches q i)) ∧
    (Server.searchResult uid q db).Pairwise
      (fun a b => b.createdAt ≤ a.createdAt) ∧
    (∀ i ∈ db, i.userId = uid → q ∈ i.tags →
      i ∈ Server.searchResult uid q db) := by
  refine ⟨rfl, rfl, ?_, ?_, ?_, ?_⟩
  · simp [Server.searchIdeas, hq]
  · exact List.mergeSort_perm _ _
  · have h := @List.sorted_mergeSort _ Server.ideaNewestLe
      (fun a b c hab hbc => by
        simp only [Server.ideaNewestLe, decide_eq_true_eq] at *
        omega)
      (fun a b => by
        simp only [Server.ideaNewestLe, Bool.or_eq_true, decide_eq_true_eq]
        omega)
      (db.filter (fun i => i.userId == uid && Server.ideaMatches q i))
    exact h.imp (fun hab => by
      simpa [Server.ideaNewestLe] using hab)
  · intro i hi hu ht
    have hmem : i ∈ db.filter
        (fun i => i.userId == uid && Server.ideaMatches q i) := by
      simp [List.mem_filter, hi, hu, Server.ideaMatches, ht]
    exact ((List.mergeSort_perm _ _).mem_iff).2 hmem

/-- Witness for C3: with query `blue` and an owned idea carrying the tag
`blue` exactly, the idea is in the search result. -/
theorem claim_C3_search_witness :
    ({ id := 1, title := "x", description := "y", category := "general",
       tags := ["blue"], userId := 1, createdAt := 0 } : Server.IdeaRow) ∈
      Server.searchResult 1 "blue"
        [{ id := 1, title := "x", description := "y", category := "general",
           tags := ["blue"], userId := 1, createdAt := 0 }] :=
  (claim_C3_search 1 "blue"
      [{ id := 1, title := "x", description := "y", category := "general",
         tags := ["blue"], userId := 1, createdAt := 0 }]
      (by decide)).2.2.2.2.2
    _ (by simp) rfl (by simp)

/-- C4: Update with a partial field set leaves every field not present in
the request unchanged and never alters the record's identifier or owner
id; a successful update stores the merge of the found row with the
provided fields (notes and tasks controllers alike). -/
theorem claim_C4_update_frame :
    (∀ (old : Server.NoteRow) (body : Server.NoteReq),
        (Server.mergeNote old body).id = old.id ∧
        (Server.mergeNote old body).userId = old.userId ∧
        (body.title = none → (Server.mergeNote old body).title = old.title) ∧
        (body.content = none →
          (Server.mergeNote old body).content = old.content) ∧
        (body.color = none → (Server.mergeNote old body).color = old.color) ∧
        (body.isPinned = none →
          (Server.mergeNote old body).isPinned = old.isPinned)) ∧
    (∀ uid id body db (old : Server.NoteRow),
        db.find? (fun n => n.id == id && n.userId == uid) = some old →
        Server.updateNote uid id body db =
          (.ok 200 (Server.mergeNote old body),
            db.map (fun n =>
              if n.id == id then Server.mergeNote old body else n))) ∧
    (∀ (old : Server.TaskRow) (body : Server.TaskReq),
        (Server.mergeTask old body).id = old.id ∧
        (Server.mergeTask old body).userId = old.userId ∧
        (body.title = none → (Server.mergeTask old body).title = old.title) ∧
        (body.description = none →
          (Server.mergeTask old body).description = old.description) ∧
        (body.completed = none →
          (Server.mergeTask old body).completed = old.completed) ∧
        (body.priority = none →
          (Server.mergeTask old body).priority = old.priority) ∧
        (body.dueDate = none →
          (Server.mergeTask old body).dueDate = old.dueDate)) ∧
    (∀ uid id body db (old : Server.TaskRow),
        db.find? (fun t => t.id == id && t.userId == uid) = some old →
        Server.updateTask uid id body db =
          (.ok 200 (Server.mergeTask old body),
            db.map (fun t =>
              if t.id == id then Server.mergeTask old body else t))) := by
  refine ⟨?_, ?_, ?_, ?_⟩
  · intro old body
    refine ⟨rfl, rfl, ?_, ?_, ?_, ?_⟩ <;>
      intro h <;> simp [Server.mergeNote, h]
  · intro uid id body db old hfind
    simp [Server.updateNote, hfind]
  · intro old body
    refine ⟨rfl, rfl, ?_, ?_, ?_, ?_, ?_⟩ <;>
      intro h <;> simp [Server.mergeTask, h]
  · intro uid id body db old hfind
    simp [Server.updateTask, hfind]

/-- Witness for C4: updating only the title of a stored note keeps its
content, color, pinned flag, id and owner id. -/
theorem claim_C4_update_frame_witness :
    (Server.mergeNote
        { id := 3, title := "t", content := "c", color := "#ffffff",
          isPinned := false, userId := 9, createdAt := 0 }
        { title := some "t2" }).content = "c" ∧
    (Server.mergeNote
        { id := 3, title := "t", content := "c", color := "#ffffff",
          isPinned := false, userId := 9, createdAt := 0 }
        { title := some "t2" }).userId = 9 := by
  have h := claim_C4_update_frame.1
    { id := 3, title := "t", content := "c", color := "#ffffff",
      isPinned := false, userId := 9, createdAt := 0 }
    { title := some "t2" }
  exact ⟨h.2.2.2.1 rfl, h.2.1⟩

/-- C5: a Login whose email is absent from the credential store and a
Login whose bcrypt comparison fails both answer 401 with the same
`Invalid email or password` message, so the two failure runs are
indistinguishable to the caller. -/
theorem claim_C5_login_uniform (compare : String → String → Bool)
    (sign : Nat → String → String) (email password : String)
    (db : List Server.UserRow)
    (h1 : email ≠ "") (h2 : password ≠ "") :
    (db.find? (fun u => u.email == email) = none →
      Server.login compare sign email password db =
        .err 401 "Invalid email or password") ∧
    (∀ u, db.find? (fun u => u.email == email) = some u →
      compare password u.password = false →
      Server.login compare sign email password db =
        .err 401 "Invalid email or password") ∧
    (∀ (compare2 : String → String → Bool) (sign2 : Nat → String → String)
        (email2 password2 : String) (db2 : List Server.UserRow),
      email2 ≠ "" → password2 ≠ "" →
      db.find? (fun u => u.email == email) = none →
      ∀ u2, db2.find? (fun u => u.email == email2) = some u2 →
      compare2 password2 u2.password = false →
      Server.login compare sign email password db =
        Server.login compare2 sign2 email2 password2 db2) := by
  refine ⟨?_, ?_, ?_⟩
  · intro hfind
    simp [Server.login, h1, h2, hfind]
  · intro u hfind hcmp
    simp [Server.login, h1, h2, hfind, hcmp]
  · intro compare2 sign2 email2 password2 db2 h1' h2' hnone u2 hsome hcmp
    have e1 : Server.login compare sign email password db =
        .err 401 "Invalid email or password" := by
      simp [Server.login, h1, h2, hnone]
    have e2 : Server.login compare2 sign2 email2 password2 db2 =
        .err 401 "Invalid email or password" := by
      simp [Server.login, h1', h2', hsome, hcmp]
    rw [e1, e2]

/-- Witness for C5: an empty credential store (absent email) and a store
holding the email with a failing comparison produce the identical 401
response. -/
theorem claim_C5_login_uniform_witness :
    Server.login (fun _ _ => false) (fun _ _ => "") "a@b" "pw" [] =
      Server.login (fun _ _ => false) (fun _ _ => "") "a@b" "pw"
        [{ id := 1, email := "a@b", password := "h", name := none }] :=
  (claim_C5_login_uniform (fun _ _ => false) (fun _ _ => "") "a@b" "pw" []
      (by decide) (by decide)).2.2
    (fun _ _ => false) (fun _ _ => "") "a@b" "pw"
    [{ id := 1, email := "a@b", password := "h", name := none }]
    (by decide) (by decide) (by decide)
    { id := 1, email := "a@b", password := "h", name := none }
    (by decide) (by decide)

namespace Server

theorem dueBefore_trans {a b c : Option Nat} (h1 : dueBefore a b = true)
    (h2 : dueBefore b c = true) : dueBefore a c = true := by
  cases a <;> cases b <;> cases c <;>
    simp_all [dueBefore] <;> omega

theorem dueBefore_antisymm {a b : Option Nat} (h1 : dueBefore a b = true)
    (h2 : dueBefore b a = true) : a = b := by
  cases a <;> cases b <;> simp_all [dueBefore] <;> omega

theorem dueBefore_total {a b : Option Nat} (h : a ≠ b) :
    dueBefore a b = true ∨ dueBefore b a = true := by
  cases a <;> cases b <;> simp_all [dueBefore] <;> omega

/-- Characterization of the tasks comparator as the lexicographic order
of the three `orderBy` keys. -/
theorem taskLe_iff (a b : TaskRow) : taskLe a b = true ↔
    (a.completed = false ∧ b.completed = true) ∨
    (a.completed = b.completed ∧ a.dueDate ≠ b.dueDate ∧
      dueBefore a.dueDate b.dueDate = true) ∨
    (a.completed = b.completed ∧ a.dueDate = b.dueDate ∧
      b.createdAt ≤ a.createdAt) := by
  cases hc : a.completed <;> cases hcb : b.completed <;>
    by_cases h2 : a.dueDate = b.dueDate <;>
      simp [taskLe, hc, hcb, h2]

theorem taskLe_trans (a b c : TaskRow) (hab : taskLe a b = true)
    (hbc : taskLe b c = true) : taskLe a c = true := by
  rw [taskLe_iff] at hab hbc ⊢
  rcases hab with ⟨ha1, ha2⟩ | ⟨ha1, ha2, ha3⟩ | ⟨ha1, ha2, ha3⟩ <;>
    rcases hbc with ⟨hb1, hb2⟩ | ⟨hb1, hb2, hb3⟩ | ⟨hb1, hb2, hb3⟩
  · rw [ha2] at hb1; exact absurd hb1 (by simp)
  · exact .inl ⟨ha1, hb1 ▸ ha2⟩
  · exact .inl ⟨ha1, hb1 ▸ ha2⟩
  · exact .inl ⟨ha1 ▸ hb1, hb2⟩
  · refine .inr (.inl ⟨ha1.trans hb1, ?_, dueBefore_trans ha3 hb3⟩)
    intro heq
    exact ha2 (dueBefore_antisymm ha3 (heq ▸ hb3))
  · exact .inr (.inl ⟨ha1.trans hb1, hb2 ▸ ha2, hb2 ▸ ha3⟩)
  · exact .inl ⟨ha1 ▸ hb1, hb2⟩
  · exact .inr (.inl ⟨ha1.trans hb1, fun heq => hb2 (ha2 ▸ heq),
      ha2 ▸ hb3⟩)
  · exact .inr (.inr ⟨ha1.trans hb1, ha2.trans hb2, hb3.trans ha3⟩)

theorem taskLe_total (a b : TaskRow) :
    taskLe a b = true ∨ taskLe b a = true := by
  by_cases h1 : a.completed = b.completed
  · by_cases h2 : a.dueDate = b.dueDate
    · rcases Nat.le_total b.createdAt a.createdAt with h | h
      · exact .inl ((taskLe_iff a b).2 (.inr (.inr ⟨h1, h2, h⟩)))
      · exact .inr ((taskLe_iff b a).2 (.inr (.inr ⟨h1.symm, h2.symm, h⟩)))
    · rcases dueBefore_total h2 with h | h
      · exact .inl ((taskLe_iff a b).2 (.inr (.inl ⟨h1, h2, h⟩)))
      · exact .inr ((taskLe_iff b a).2
          (.inr (.inl ⟨h1.symm, fun heq => h2 heq.symm, h⟩)))
  · cases hc : a.completed
    · exact .inl ((taskLe_iff a b).2 (.inl ⟨hc, by
        cases hcb : b.completed
        · exact absurd (hc.trans hcb.symm) h1
        · rfl⟩))
    · exact .inr ((taskLe_iff b a).2 (.inl ⟨by
        cases hcb : b.completed
        · rfl
        · exact absurd (hc.trans hcb.symm) h1, hc⟩))

/-- Characterization of the notes comparator: pinned first, then newest
first. -/
theorem noteLe_iff (a b : NoteRow) : noteLe a b = true ↔
    (a.isPinned = true ∧ b.isPinned = false) ∨
    (a.isPinned = b.isPinned ∧ b.createdAt ≤ a.createdAt) := by
  cases hp : a.isPinned <;> cases hpb : b.isPinned <;>
    simp [noteLe, hp, hpb]

theorem noteLe_trans (a b c : NoteRow) (hab : noteLe a b = true)
    (hbc : noteLe b c = true) : noteLe a c = true := by
  rw [noteLe_iff] at hab hbc ⊢
  rcases hab with ⟨ha1, ha2⟩ | ⟨ha1, ha2⟩ <;>
    rcases hbc with ⟨hb1, hb2⟩ | ⟨hb1, hb2⟩
  · rw [ha2] at hb1; exact absurd hb1 (by simp)
  · exact .inl ⟨ha1, hb1 ▸ ha2⟩
  · exact .inl ⟨ha1 ▸ hb1, hb2⟩
  · exact .inr ⟨ha1.trans hb1, hb2.trans ha2⟩

theorem noteLe_total (a b : NoteRow) :
    noteLe a b = true ∨ noteLe b a = true := by
  by_cases h1 : a.isPinned = b.isPinned
  · rcases Nat.le_total b.createdAt a.createdAt with h | h
    · exact .inl ((noteLe_iff a b).2 (.inr ⟨h1, h⟩))
    · exact .inr ((noteLe_iff b a).2 (.inr ⟨h1.symm, h⟩))
  · cases hp : a.isPinned
    · refine .inr ((noteLe_iff b a).2 (.inl ⟨?_, hp⟩))
      cases hpb : b.isPinned
      · exact absurd (hp.trans hpb.symm) h1
      · rfl
    · refine .inl ((noteLe_iff a b).2 (.inl ⟨hp, ?_⟩))
      cases hpb : b.isPinned
      · rfl
      · exact absurd (hp.trans hpb.symm) h1

end Server

/-- C6: task List answers exactly the caller's tasks ordered
lexicographically by incomplete-before-completed, then ascending due
date, then descending creation time; note List answers exactly the
caller's notes ordered pinned-first then descending creation time. -/
theorem claim_C6_list_ordering (uid : Nat) (tdb : List Server.TaskRow)
    (ndb : List Server.NoteRow) :
    Server.getTasks uid tdb =
      .ok 200 ((tdb.filter (fun t => t.userId == uid)).mergeSort
        Server.taskLe) ∧
    List.Perm
      ((tdb.filter (fun t => t.userId == uid)).mergeSort Server.taskLe)
      (tdb.filter (fun t => t.userId == uid)) ∧
    ((tdb.filter (fun t => t.userId == uid)).mergeSort
        Server.taskLe).Pairwise (fun a b =>
      (a.completed = false ∧ b.completed = true) ∨
      (a.completed = b.completed ∧ a.dueDate ≠ b.dueDate ∧
        Server.dueBefore a.dueDate b.dueDate = true) ∨
      (a.completed = b.completed ∧ a.dueDate = b.dueDate ∧
        b.createdAt ≤ a.createdAt)) ∧
    Server.getNotes uid ndb =
      .ok 200 ((ndb.filter (fun n => n.userId == uid)).mergeSort
        Server.noteLe) ∧
    List.Perm
      ((ndb.filter (fun n => n.userId == uid)).mergeSort Server.noteLe)
      (ndb.filter (fun n => n.userId == uid)) ∧
    ((ndb.filter (fun n => n.userId == uid)).mergeSort
        Server.noteLe).Pairwise (fun a b =>
      (a.isPinned = true ∧ b.isPinned = false) ∨
      (a.isPinned = b.isPinned ∧ b.createdAt ≤ a.createdAt)) := by
  refine ⟨rfl, List.mergeSort_perm _ _, ?_, rfl,
    List.mergeSort_perm _ _, ?_⟩
  · have h := @List.sorted_mergeSort _ Server.taskLe
      (fun a b c hab hbc => Server.taskLe_trans a b c hab hbc)
      (fun a b => by
        rcases Server.taskLe_total a b with h | h <;> simp [h])
      (tdb.filter (fun t => t.userId == uid))
    exact h.imp (fun hab => (Server.taskLe_iff _ _).1 hab)
  · have h := @List.sorted_mergeSort _ Server.noteLe
      (fun a b c hab hbc => Server.noteLe_trans a b c hab hbc)
      (fun a b => by
        rcases Server.noteLe_total a b with h | h <;> simp [h])
      (ndb.filter (fun n => n.userId == uid))
    exact h.imp (fun hab => (Server.noteLe_iff _ _).1 hab)

/-- C7: Delete answers 404 and removes nothing when no row with the id is
owned by the caller — in particular when every row with that id belongs
to another user; a successful Delete removes every row with the id, and a
second Delete of the same id by the same caller answers 404 and changes
nothing. -/
theorem claim_C7_delete (uid id : Nat) (db : List Server.NoteRow) :
    ((∀ n ∈ db, n.id = id → n.userId ≠ uid) →
      Server.deleteNote uid id db = (.err 404 "Note not found", db)) ∧
    (∀ old, db.find? (fun n => n.id == id && n.userId == uid) = some old →
      (Server.deleteNote uid id db).1 =
        .ok 200 "Note deleted successfully" ∧
      (∀ n ∈ (Server.deleteNote uid id db).2, n.id ≠ id) ∧
      Server.deleteNote uid id (Server.deleteNote uid id db).2 =
        (.err 404 "Note not found", (Server.deleteNote uid id db).2)) := by
  constructor
  · intro hnone
    have hfind : db.find? (fun n => n.id == id && n.userId == uid) = none := by
      rw [List.find?_eq_none]
      intro n hn
      simp only [Bool.and_eq_true, beq_iff_eq, not_and]
      intro hid
      exact hnone n hn hid
    simp [Server.deleteNote, hfind]
  · intro old hfind
    have hres : Server.deleteNote uid id db =
        (.ok 200 "Note deleted successfully",
          db.filter (fun n => !(n.id == id))) := by
      simp [Server.deleteNote, hfind]
    refine ⟨by rw [hres], ?_, ?_⟩
    · intro n hn
      rw [hres] at hn
      have := (List.mem_filter.1 hn).2
      simpa using this
    · have hgone : (db.filter (fun n => !(n.id == id))).find?
          (fun n => n.id == id && n.userId == uid) = none := by
        rw [List.find?_eq_none]
        intro n hn
        have := (List.mem_filter.1 hn).2
        simp only [Bool.not_eq_true', beq_eq_false_iff_ne, ne_eq] at this
        simp [this]
      rw [hres]
      simp [Server.deleteNote, hgone]

/-- Witness for C7: deleting the only row twice — the first call
succeeds and empties the table, the second answers 404. -/
theorem claim_C7_delete_witness :
    (Server.deleteNote 2 1
        [{ id := 1, title := "t", content := "c", color := "#ffffff",
           isPinned := false, userId := 2, createdAt := 0 }]).1 =
      .ok 200 "Note deleted successfully" ∧
    Server.deleteNote 2 1
        (Server.deleteNote 2 1
          [{ id := 1, title := "t", content := "c", color := "#ffffff",
             isPinned := false, userId := 2, createdAt := 0 }]).2 =
      (.err 404 "Note not found",
        (Server.deleteNote 2 1
          [{ id := 1, title := "t", content := "c", color := "#ffffff",
             isPinned := false, userId := 2, createdAt := 0 }]).2) := by
  have h := (claim_C7_delete 2 1
      [{ id := 1, title := "t", content := "c", color := "#ffffff",
         isPinned := false, userId := 2, createdAt := 0 }]).2
    { id := 1, title := "t", content := "c", color := "#ffffff",
      isPinned := false, userId := 2, createdAt := 0 } (by decide)
  exact ⟨h.1, h.2.2⟩

/-- C8: every authenticated mutating store call enters with
`loading := true` and exits with `loading := false`; on failure it
records the error message and leaves the list untouched; guest mutating
calls never touch the loading flag. -/
theorem claim_C8_store_state_machine (st : Client.NotesState)
    (respA : Except String Client.ClientNote) (respD : Except String Unit)
    (genId now delId : String) (d : Client.NoteData) :
    ((Client.addNoteAuth st respA).1.loading = true) ∧
    ((Client.addNoteAuth st respA).2.loading = false) ∧
    (∀ m, respA = .error m →
      (Client.addNoteAuth st respA).2.error = some m ∧
      (Client.addNoteAuth st respA).2.notes = st.notes) ∧
    ((Client.deleteNoteAuth delId st respD).1.loading = true) ∧
    ((Client.deleteNoteAuth delId st respD).2.loading = false) ∧
    (∀ m, respD = .error m →
      (Client.deleteNoteAuth delId st respD).2.error = some m ∧
      (Client.deleteNoteAuth delId st respD).2.notes = st.notes) ∧
    ((Client.addNoteGuest genId now d st).1.loading = st.loading) ∧
    ((Client.deleteNoteGuest delId st).loading = st.loading) := by
  refine ⟨?_, ?_, ?_, ?_, ?_, ?_, rfl, rfl⟩
  · cases respA <;> rfl
  · cases respA <;> rfl
  · intro m hm
    subst hm
    exact ⟨rfl, rfl⟩
  · cases respD <;> rfl
  · cases respD <;> rfl
  · intro m hm
    subst hm
    exact ⟨rfl, rfl⟩

/-- Witness for C8: a failing authenticated add sets the error and keeps
the single-note list unchanged, with the loading flag raised in between
and cleared at the end. -/
theorem claim_C8_store_state_machine_witness :
    ((Client.addNoteAuth { notes := [] } (.error "boom")).1.loading
        = true) ∧
    ((Client.addNoteAuth { notes := [] } (.error "boom")).2.error
        = some "boom") ∧
    ((Client.addNoteAuth { notes := [] } (.error "boom")).2.notes = []) := by
  have h := claim_C8_store_state_machine { notes := [] } (.error "boom")
    (.error "boom") "g" "t" "d" {}
  exact ⟨h.1, (h.2.2.1 "boom" rfl).1, (h.2.2.1 "boom" rfl).2⟩

/-- C9: the guest branch of the tasks store's Add stores
`completed = false` even when the supplied fields say `completed: true`
(the store overwrites the flag after spreading the input), while the
authenticated path's server Create honors a supplied `completed: true`. -/
theorem claim_C9_guest_completed_override (genId now : String)
    (d : Client.TaskData) (st : Client.TasksState)
    (uid freshId snow : Nat) (body : Server.TaskReq)
    (db : List Server.TaskRow)
    (ht : strOr body.title "" ≠ "") (hc : body.completed = some true) :
    ((Client.addTaskGuest genId now d st).2.completed = false) ∧
    ((Client.addTaskGuest genId now
        { d with completed := some true } st).2.completed = false) ∧
    (∃ row : Server.TaskRow,
      Server.createTask uid body freshId snow db =
        (.ok 201 row, db ++ [row]) ∧ row.completed = true) := by
  refine ⟨rfl, rfl, ?_⟩
  unfold Server.createTask
  rw [if_neg ht]
  exact ⟨_, rfl, by simp [boolOr, hc]⟩

/-- Witness for C9: a guest add with `completed: true` stores `false`;
the server create with `completed: true` stores `true`. -/
theorem claim_C9_guest_completed_override_witness :
    ((Client.addTaskGuest "g" "t" { completed := some true }
        { tasks := [] }).2.completed = false) ∧
    (∃ row : Server.TaskRow,
      Server.createTask 1 { title := some "a", completed := some true }
          5 0 [] = (.ok 201 row, [] ++ [row]) ∧ row.completed = true) := by
  have h := claim_C9_guest_completed_override "g" "t"
    { completed := some true } { tasks := [] } 1 5 0
    { title := some "a", completed := some true } []
    (by decide) rfl
  exact ⟨h.1, h.2.2⟩

/-- C10: when registration succeeds but one of the subsequent per-type
sync calls throws, the client register operation reports failure and the
page leaves the three guest lists uncleared, even though the auth state
(user, token, authenticated flag) was committed before the sync phase and
every sync call before the failing one already completed. -/
theorem claim_C10_register_partial_failure (env : Client.RegisterEnv)
    (st0 : Client.AuthState) (lists : Client.PageLists)
    (u : Client.ClientUser) (tok m : String)
    (hreg : env.regResp = .ok (u, tok)) :
    (lists.notes ≠ [] → env.notesResp = .error m →
      (Client.handleRegisterSubmit env st0 lists).1.success = false ∧
      (Client.handleRegisterSubmit env st0 lists).1.state.isAuthenticated
        = true ∧
      (Client.handleRegisterSubmit env st0 lists).1.state.token = some tok ∧
      (Client.handleRegisterSubmit env st0 lists).2 = lists) ∧
    (∀ k, lists.notes ≠ [] → lists.tasks ≠ [] →
      env.notesResp = .ok k → env.tasksResp = .error m →
      (Client.handleRegisterSubmit env st0 lists).1.success = false ∧
      (Client.handleRegisterSubmit env st0 lists).1.state.isAuthenticated
        = true ∧
      (Client.handleRegisterSubmit env st0 lists).1.state.token = some tok ∧
      (Client.handleRegisterSubmit env st0 lists).1.sync.notesSynced
        = true ∧
      (Client.handleRegisterSubmit env st0 lists).2 = lists) ∧
    (∀ k k2, lists.notes ≠ [] → lists.tasks ≠ [] → lists.ideas ≠ [] →
      env.notesResp = .ok k → env.tasksResp = .ok k2 →
      env.ideasResp = .error m →
      (Client.handleRegisterSubmit env st0 lists).1.success = false ∧
      (Client.handleRegisterSubmit env st0 lists).1.state.isAuthenticated
        = true ∧
      (Client.handleRegisterSubmit env st0 lists).1.state.token = some tok ∧
      (Client.handleRegisterSubmit env st0 lists).1.sync.notesSynced
        = true ∧
      (Client.handleRegisterSubmit env st0 lists).1.sync.tasksSynced
        = true ∧
      (Client.handleRegisterSubmit env st0 lists).2 = lists) := by
  refine ⟨?_, ?_, ?_⟩
  · intro hnotes hn
    have hn0 : 0 < lists.notes.length := List.length_pos.2 hnotes
    simp [Client.handleRegisterSubmit, Client.registerClient, hreg,
      Client.syncNotesStep, Client.getNotesForSync, hn0, hn]
  · intro k hnotes htasks hn ht
    have hn0 : 0 < lists.notes.length := List.length_pos.2 hnotes
    have ht0 : 0 < lists.tasks.length := List.length_pos.2 htasks
    simp [Client.handleRegisterSubmit, Client.registerClient, hreg,
      Client.syncNotesStep, Client.syncTasksStep, Client.getNotesForSync,
      Client.getTasksForSync, hn0, ht0, hn, ht]
  · intro k k2 hnotes htasks hideas hn ht hi
    have hn0 : 0 < lists.notes.length := List.length_pos.2 hnotes
    have ht0 : 0 < lists.tasks.length := List.length_pos.2 htasks
    have hi0 : 0 < lists.ideas.length := List.length_pos.2 hideas
    simp [Client.handleRegisterSubmit, Client.registerClient, hreg,
      Client.syncNotesStep, Client.syncTasksStep, Client.syncIdeasStep,
      Client.getNotesForSync, Client.getTasksForSync,
      Client.getIdeasForSync, hn0, ht0, hi0, hn, ht, hi]

/-- Witness for C10: registration succeeds, the notes sync succeeds, the
tasks sync throws — register reports failure, the auth state is
committed, the notes were already inserted, and the lists are not
cleared. -/
theorem claim_C10_register_partial_failure_witness :
    (Client.handleRegisterSubmit
        { regResp := .ok ({ id := 1, email := "e", name := none }, "tok"),
          notesResp := .ok 1, tasksResp := .error "fail",
          ideasResp := .ok 0 }
        {}
        { notes := [{ id := "n1" }], tasks := [{ id := "t1" }],
          ideas := [] }).1.success = false ∧
    (Client.handleRegisterSubmit
        { regResp := .ok ({ id := 1, email := "e", name := none }, "tok"),
          notesResp := .ok 1, tasksResp := .error "fail",
          ideasResp := .ok 0 }
        {}
        { notes := [{ id := "n1" }], tasks := [{ id := "t1" }],
          ideas := [] }).1.state.isAuthenticated = true ∧
    (Client.handleRegisterSubmit
        { regResp := .ok ({ id := 1, email := "e", name := none }, "tok"),
          notesResp := .ok 1, tasksResp := .error "fail",
          ideasResp := .ok 0 }
        {}
        { notes := [{ id := "n1" }], tasks := [{ id := "t1" }],
          ideas := [] }).1.sync.notesSynced = true ∧
    (Client.handleRegisterSubmit
        { regResp := .ok ({ id := 1, email := "e", name := none }, "tok"),
          notesResp := .ok 1, tasksResp := .error "fail",
          ideasResp := .ok 0 }
        {}
        { notes := [{ id := "n1" }], tasks := [{ id := "t1" }],
          ideas := [] }).2 =
      { notes := [{ id := "n1" }], tasks := [{ id := "t1" }],
        ideas := [] } := by
  have h := (claim_C10_register_partial_failure
      { regResp := .ok ({ id := 1, email := "e", name := none }, "tok"),
        notesResp := .ok 1, tasksResp := .error "fail",
        ideasResp := .ok 0 }
      {}
      { notes := [{ id := "n1" }], tasks := [{ id := "t1" }],
        ideas := [] }
      { id := 1, email := "e", name := none } "tok" "fail" rfl).2.1
    1 (by decide) (by decide) rfl rfl
  exact ⟨h.1, h.2.1, h.2.2.2.1, h.2.2.2.2⟩












